import Mathlib

/-
Verification of the triage orchestration pipeline of `app_advanced.py`
(vulnerability assessment assistant).

Shallow embedding notes:
* Python values that flow through `json.loads` / truthiness checks are modelled
  by `PyVal`.  A Python `dict` is modelled as the ordered association list of
  its key/value pairs as produced by the JSON parser; `json.loads` keeps the
  last occurrence of a duplicate key, so lookups read the last binding.
* Python floats are modelled as exact rationals (binary64 rounding is not
  modelled; none of the verified properties involve floating point).
* `json.loads` is modelled by a fuel-indexed recursive-descent parser for
  strict JSON (the nonstandard `NaN`/`Infinity` extensions that CPython's
  parser additionally accepts are not modelled, and a lone `\uXXXX` surrogate
  escape — unrepresentable in Lean's `Char` — decodes to an unspecified
  character; no verified property depends on either corner).
* The fuel `2 * length + 2` dominates the parser's call depth: every
  `parseVal`/`parseElems`/`parseMembers` step either consumes at least one
  input character or is one of at most two chained calls per consumed
  character.
* External effects (the CISA KEV HTTP fetch, the DuckDuckGo search, the
  chat-completion call) are modelled as explicit outcome parameters; an
  `Except.error` models the call raising an exception whose `str()` is the
  carried string.
-/

namespace VulnApp

/-- Model of the Python values produced by `json.loads` (plus `None`). -/
inductive PyVal where
  | null
  | bool (b : Bool)
  | int (n : Int)
  | float (q : Rat)
  | str (s : String)
  | list (xs : List PyVal)
  | dict (kvs : List (String × PyVal))

/-- Python truthiness (`bool(v)`) on the `PyVal` fragment. -/
def truthy : PyVal → Bool
  | .null => false
  | .bool b => b
  | .int n => n != 0
  | .float q => q != 0
  | .str s => s != ""
  | .list xs => !xs.isEmpty
  | .dict kvs => !kvs.isEmpty

/-- JSON whitespace accepted by `json.loads` between tokens. -/
def isJWs (c : Char) : Bool := c == ' ' || c == '\t' || c == '\n' || c == '\r'

/-- Skip JSON whitespace. -/
def skipWs (cs : List Char) : List Char := cs.dropWhile isJWs

/-- Value of one hexadecimal digit (both cases), as read by `\uXXXX` escapes. -/
def hexVal (c : Char) : Option Nat :=
  if '0' ≤ c ∧ c ≤ '9' then some (c.toNat - 48)
  else if 'a' ≤ c ∧ c ≤ 'f' then some (c.toNat - 87)
  else if 'A' ≤ c ∧ c ≤ 'F' then some (c.toNat - 55)
  else Option.none

/-- Lower-case hexadecimal digit, as written by `json.dumps`. -/
def hexDigit (d : Nat) : Char :=
  if d < 10 then Char.ofNat (48 + d) else Char.ofNat (87 + d)

/-- Four lower-case hex digits of `n % 0x10000`, as in a `\uXXXX` escape. -/
def hex4 (n : Nat) : List Char :=
  [hexDigit (n / 4096 % 16), hexDigit (n / 256 % 16), hexDigit (n / 16 % 16), hexDigit (n % 16)]

/-- Prepend a decoded character to the result of parsing the rest of a JSON string. -/
def strCons (c : Char) (r : Option (List Char × List Char)) : Option (List Char × List Char) :=
  r.map (fun sr => (c :: sr.1, sr.2))

/-- Parse the body of a JSON string (the opening quote already consumed),
returning the decoded characters and the input after the closing quote.
Mirrors the strict `json.loads` string scanner.  The fuel (one unit per
decoded character, every step consuming at least one input character) is set
to `length + 1` by the callers, which always suffices. -/
def parseStringBody : Nat → List Char → Option (List Char × List Char)
  | 0, _ => Option.none
  | _ + 1, [] => Option.none
  | _ + 1, '"' :: rest => some ([], rest)
  | fuel + 1, '\\' :: 'u' :: h1 :: h2 :: h3 :: h4 :: '\\' :: 'u' :: g1 :: g2 :: g3 :: g4 :: t3 =>
    match hexVal h1, hexVal h2, hexVal h3, hexVal h4 with
    | some a, some b, some c', some d =>
      let code := 4096 * a + 256 * b + 16 * c' + d
      if 55296 ≤ code ∧ code ≤ 56319 then
        match hexVal g1, hexVal g2, hexVal g3, hexVal g4 with
        | some a', some b', some c'', some d' =>
          let lo := 4096 * a' + 256 * b' + 16 * c'' + d'
          if 56320 ≤ lo ∧ lo ≤ 57343 then
            strCons (Char.ofNat (65536 + (code - 55296) * 1024 + (lo - 56320)))
              (parseStringBody fuel t3)
          else
            strCons (Char.ofNat code)
              (parseStringBody fuel ('\\' :: 'u' :: g1 :: g2 :: g3 :: g4 :: t3))
        | _, _, _, _ =>
          strCons (Char.ofNat code)
            (parseStringBody fuel ('\\' :: 'u' :: g1 :: g2 :: g3 :: g4 :: t3))
      else
        strCons (Char.ofNat code)
          (parseStringBody fuel ('\\' :: 'u' :: g1 :: g2 :: g3 :: g4 :: t3))
    | _, _, _, _ => Option.none
  | fuel + 1, '\\' :: 'u' :: h1 :: h2 :: h3 :: h4 :: t2 =>
    match hexVal h1, hexVal h2, hexVal h3, hexVal h4 with
    | some a, some b, some c', some d =>
      strCons (Char.ofNat (4096 * a + 256 * b + 16 * c' + d)) (parseStringBody fuel t2)
    | _, _, _, _ => Option.none
  | fuel + 1, '\\' :: e :: t =>
    if e = '"' then strCons '"' (parseStringBody fuel t)
    else if e = '\\' then strCons '\\' (parseStringBody fuel t)
    else if e = '/' then strCons '/' (parseStringBody fuel t)
    else if e = 'b' then strCons (Char.ofNat 8) (parseStringBody fuel t)
    else if e = 'f' then strCons (Char.ofNat 12) (parseStringBody fuel t)
    else if e = 'n' then strCons '\n' (parseStringBody fuel t)
    else if e = 'r' then strCons '\r' (parseStringBody fuel t)
    else if e = 't' then strCons '\t' (parseStringBody fuel t)
    else Option.none
  | _ + 1, ['\\'] => Option.none
  | fuel + 1, c :: rest =>
    if c.toNat < 32 then Option.none
    else strCons c (parseStringBody fuel rest)

/-- Longest digit run at the front of the input. -/
def takeDigitsAll (cs : List Char) : List Char × List Char :=
  (cs.takeWhile Char.isDigit, cs.dropWhile Char.isDigit)

/-- Numeric value of a digit run. -/
def digitsVal (ds : List Char) : Nat :=
  ds.foldl (fun a c => a * 10 + (c.toNat - 48)) 0

/-- Exact rational value of a JSON number with integer digits `ids`,
fraction digits `fds` and decimal exponent `ex`. -/
def ratVal (neg : Bool) (ids fds : List Char) (ex : Int) : Rat :=
  (cond neg (-1) 1) * ((digitsVal ids : Rat) + (digitsVal fds : Rat) / ((10 : Rat) ^ fds.length))
    * (10 : Rat) ^ ex

/-- Parse a JSON number (strict grammar: optional minus, `0` or a nonzero-led
digit run, optional fraction, optional exponent).  An integer literal yields a
Python `int`, anything with a fraction or exponent a Python `float`. -/
def parseNumber (cs : List Char) : Option (PyVal × List Char) :=
  let sign := match cs with
    | c :: t => if c = '-' then (true, t) else (false, cs)
    | [] => (false, cs)
  match sign.2 with
  | c :: t =>
    if c.isDigit then
      let ip := if c = '0' then ([c], t) else takeDigitsAll sign.2
      let fr := match ip.2 with
        | '.' :: t2 => (true, (takeDigitsAll t2).1, (takeDigitsAll t2).2)
        | _ => (false, [], ip.2)
      if fr.1 ∧ fr.2.1 = [] then Option.none
      else
        match fr.2.2 with
        | e :: t3 =>
          if e = 'e' ∨ e = 'E' then
            let es := match t3 with
              | s :: t4 =>
                if s = '+' then ((1 : Int), t4)
                else if s = '-' then ((-1 : Int), t4)
                else ((1 : Int), t3)
              | [] => ((1 : Int), t3)
            let ed := takeDigitsAll es.2
            if ed.1 = [] then Option.none
            else some (.float (ratVal sign.1 ip.1 fr.2.1 (es.1 * (digitsVal ed.1 : Int))), ed.2)
          else if fr.1 then some (.float (ratVal sign.1 ip.1 fr.2.1 0), fr.2.2)
          else some (.int ((cond sign.1 (-1) 1) * (digitsVal ip.1 : Int)), fr.2.2)
        | [] =>
          if fr.1 then some (.float (ratVal sign.1 ip.1 fr.2.1 0), fr.2.2)
          else some (.int ((cond sign.1 (-1) 1) * (digitsVal ip.1 : Int)), fr.2.2)
    else Option.none
  | [] => Option.none

/-- Does `pat` lead the list `cs`? (`str.startswith` on the character level). -/
def leadsWith : List Char → List Char → Bool
  | [], _ => true
  | _ :: _, [] => false
  | p :: ps, c :: cs => p == c && leadsWith ps cs

mutual

/-- Fuel-indexed JSON value parser mirroring `json.loads`; returns the value
and the unconsumed input. -/
def parseVal : Nat → List Char → Option (PyVal × List Char)
  | 0, _ => Option.none
  | fuel + 1, cs =>
    match skipWs cs with
    | [] => Option.none
    | c :: rest =>
      if c = Char.ofNat 123 then
        match skipWs rest with
        | c2 :: rest2 =>
          if c2 = Char.ofNat 125 then some (.dict [], rest2)
          else (parseMembers fuel (c2 :: rest2)).map (fun mr => (PyVal.dict mr.1, mr.2))
        | [] => Option.none
      else if c = '[' then
        match skipWs rest with
        | c2 :: rest2 =>
          if c2 = ']' then some (.list [], rest2)
          else (parseElems fuel (c2 :: rest2)).map (fun er => (PyVal.list er.1, er.2))
        | [] => Option.none
      else if c = '"' then
        (parseStringBody (rest.length + 1) rest).map
          (fun sr => (PyVal.str (String.mk sr.1), sr.2))
      else if c = 't' then
        if leadsWith ['r', 'u', 'e'] rest then some (.bool true, rest.drop 3) else Option.none
      else if c = 'f' then
        if leadsWith ['a', 'l', 's', 'e'] rest then some (.bool false, rest.drop 4) else Option.none
      else if c = 'n' then
        if leadsWith ['u', 'l', 'l'] rest then some (.null, rest.drop 3) else Option.none
      else if c = '-' ∨ c.isDigit then parseNumber (c :: rest)
      else Option.none

/-- Parse the members of a nonempty JSON object, up to and including `}`. -/
def parseMembers : Nat → List Char → Option (List (String × PyVal) × List Char)
  | 0, _ => Option.none
  | fuel + 1, cs =>
    match skipWs cs with
    | c :: rest =>
      if c = '"' then
        match parseStringBody (rest.length + 1) rest with
        | some (k, rest1) =>
          match skipWs rest1 with
          | c2 :: rest2 =>
            if c2 = ':' then
              match parseVal fuel rest2 with
              | some (v, rest3) =>
                match skipWs rest3 with
                | c3 :: rest4 =>
                  if c3 = ',' then
                    (parseMembers fuel rest4).map
                      (fun mr => ((String.mk k, v) :: mr.1, mr.2))
                  else if c3 = Char.ofNat 125 then some ([(String.mk k, v)], rest4)
                  else Option.none
                | [] => Option.none
              | Option.none => Option.none
            else Option.none
          | [] => Option.none
        | Option.none => Option.none
      else Option.none
    | [] => Option.none

/-- Parse the elements of a nonempty JSON array, up to and including `]`. -/
def parseElems : Nat → List Char → Option (List PyVal × List Char)
  | 0, _ => Option.none
  | fuel + 1, cs =>
    match parseVal fuel cs with
    | some (v, rest) =>
      match skipWs rest with
      | c :: rest2 =>
        if c = ',' then (parseElems fuel rest2).map (fun er => (v :: er.1, er.2))
        else if c = ']' then some ([v], rest2)
        else Option.none
      | [] => Option.none
    | Option.none => Option.none

end

/-- `json.loads` on a character list: parse one value and require that only
whitespace remains (otherwise `json.loads` raises `JSONDecodeError`,
modelled as `Option.none`). -/
def jsonLoadsL (cs : List Char) : Option PyVal :=
  match parseVal (2 * cs.length + 2) cs with
  | some (v, rest) => if skipWs rest = [] then some v else Option.none
  | Option.none => Option.none

/-- `json.loads` on a string. -/
def json_loads (s : String) : Option PyVal := jsonLoadsL s.data

/-- `str.replace(pat, "")` for a nonempty pattern: remove every occurrence,
scanning left to right, non-overlapping.  Both replacements in
`extract_json_from_text` use the empty replacement string.  The fuel (one
unit per scanned position, each consuming at least one character) is the
input length, which always suffices. -/
def removeOccAux (pat : List Char) : Nat → List Char → List Char
  | _, [] => []
  | 0, cs => cs
  | fuel + 1, c :: rest =>
    if pat ≠ [] ∧ leadsWith pat (c :: rest) then
      removeOccAux pat fuel (List.drop pat.length (c :: rest))
    else c :: removeOccAux pat fuel rest

/-- `str.replace(pat, "")`. -/
def removeOcc (pat cs : List Char) : List Char := removeOccAux pat cs.length cs

/-- Python `str.strip()` whitespace (the ASCII part; identifiers and JSON
payloads in this pipeline are ASCII-delimited). -/
def isPyWs (c : Char) : Bool :=
  c == ' ' || c == '\t' || c == '\n' || c == '\r' || c == Char.ofNat 11 || c == Char.ofNat 12

/-- Python `str.strip()`. -/
def pyStrip (cs : List Char) : List Char :=
  ((cs.dropWhile isPyWs).reverse.dropWhile isPyWs).reverse

/-- The Markdown fence markers stripped by strategy 2 of the extractor. -/
def patFenceJson : List Char := [Char.ofNat 96, Char.ofNat 96, Char.ofNat 96, 'j', 's', 'o', 'n']

/-- Three backticks. -/
def patTicks : List Char := [Char.ofNat 96, Char.ofNat 96, Char.ofNat 96]

/-- Strategy 2's cleaned text:
`text.replace("```json", "").replace("```", "").strip()`. -/
def cleanTextL (cs : List Char) : List Char :=
  pyStrip (removeOcc patTicks (removeOcc patFenceJson cs))

/-- Strategy 3's span: `re.search(r"(\[.*\])", text, re.DOTALL)`, i.e. the span
from the first `[` to the last `]` after it (greedy `.*` with DOTALL), if any. -/
def bracketSpan (cs : List Char) : Option (List Char) :=
  let s1 := cs.dropWhile (fun c => !(c == '['))
  let r := (s1.reverse.dropWhile (fun c => !(c == ']'))).reverse
  if r.isEmpty then Option.none else some r

/-- `extract_json_from_text` (lines 44-71): try `json.loads` on the raw text,
then on the fence-stripped text, then on the first-`[`-to-last-`]` span; a
parse failure at every stage returns Python `None` (`PyVal.null`). -/
def extract_json_from_text (text : String) : PyVal :=
  match jsonLoadsL text.data with
  | some v => v
  | Option.none =>
    match jsonLoadsL (cleanTextL text.data) with
    | some v => v
    | Option.none =>
      match bracketSpan text.data with
      | some span =>
        match jsonLoadsL span with
        | some v => v
        | Option.none => PyVal.null
      | Option.none => PyVal.null

/-- Up to `n` leading decimal digits (greedy, stops at the first non-digit). -/
def takeDigits : Nat → List Char → List Char × List Char
  | 0, cs => ([], cs)
  | _ + 1, [] => ([], [])
  | n + 1, c :: cs =>
    if c.isDigit then
      let p := takeDigits n cs
      (c :: p.1, p.2)
    else ([], c :: cs)

/-- One attempt of the regex `CVE-\d{4}-\d{4,7}` (IGNORECASE) anchored at the
head of the input; on success returns the matched characters (original case
preserved, as `re.findall` does) and the input after the match. -/
def cveMatchAt (cs : List Char) : Option (List Char × List Char) :=
  match cs with
  | c1 :: c2 :: c3 :: c4 :: rest =>
    if c1.toLower = 'c' ∧ c2.toLower = 'v' ∧ c3.toLower = 'e' ∧ c4 = '-' then
      let y := takeDigits 4 rest
      if y.1.length = 4 then
        match y.2 with
        | c5 :: r2 =>
          if c5 = '-' then
            let sq := takeDigits 7 r2
            if 4 ≤ sq.1.length then some (c1 :: c2 :: c3 :: '-' :: y.1 ++ '-' :: sq.1, sq.2)
            else Option.none
          else Option.none
        | [] => Option.none
      else Option.none
    else Option.none
  | _ => Option.none

/-- `re.findall` scan: try a match at each position, left to right,
non-overlapping.  The fuel (one unit per scanned position) is the input
length, which every step consumes at least one character of. -/
def findallCVEAux : Nat → List Char → List (List Char)
  | 0, _ => []
  | _ + 1, [] => []
  | fuel + 1, c :: cs =>
    match cveMatchAt (c :: cs) with
    | some (m, rest) => m :: findallCVEAux fuel rest
    | Option.none => findallCVEAux fuel cs

/-- `extract_cves` (lines 40-42):
`list(set(re.findall(r"(CVE-\d{4}-\d{4,7})", text, re.IGNORECASE)))`.
The Python `set` iteration order is arbitrary; the model fixes
first-occurrence order, and every verified statement uses only
order-insensitive facts (membership, length, duplicate-freedom). -/
def extract_cves (text : String) : List String :=
  ((findallCVEAux text.data.length text.data).map (fun m => String.mk m)).dedup

/-- `json.dumps` escaping of one character (`ensure_ascii=True`, the
default): the two-character shortcuts, `\uXXXX` with lower-case hex for other
characters outside `0x20`-`0x7e` (as a surrogate pair beyond `0xFFFF`), and
the character itself otherwise. -/
def escChar (c : Char) : List Char :=
  if c = '"' then ['\\', '"']
  else if c = '\\' then ['\\', '\\']
  else if c = '\n' then ['\\', 'n']
  else if c = '\r' then ['\\', 'r']
  else if c = '\t' then ['\\', 't']
  else if c = Char.ofNat 8 then ['\\', 'b']
  else if c = Char.ofNat 12 then ['\\', 'f']
  else if c.toNat < 32 ∨ 126 < c.toNat then
    if c.toNat < 65536 then '\\' :: 'u' :: hex4 c.toNat
    else
      ('\\' :: 'u' :: hex4 (55296 + (c.toNat - 65536) / 1024)) ++
        ('\\' :: 'u' :: hex4 (56320 + (c.toNat - 65536) % 1024))
  else [c]

/-- `json.dumps` of a string. -/
def dumpStrL (s : String) : List Char := '"' :: (s.data.flatMap escChar ++ ['"'])

/-- One structured output unit, as in the spec's data model (all seven fields
are strings). -/
structure Finding where
  component : String
  cve : String
  level : String
  tag : String
  reason : String
  suggestion : String
  action_code : String

/-- The key/value pairs of a Finding, in the documented key order. -/
def fieldsList (f : Finding) : List (String × String) :=
  [("component", f.component), ("cve", f.cve), ("level", f.level), ("tag", f.tag),
   ("reason", f.reason), ("suggestion", f.suggestion), ("action_code", f.action_code)]

/-- The Python value a Finding round-trips through. -/
def findingToPy (f : Finding) : PyVal :=
  .dict ((fieldsList f).map (fun kv => (kv.1, PyVal.str kv.2)))

/-- The list value recovered from a serialized Finding list. -/
def findingsToPy (L : List Finding) : PyVal := .list (L.map findingToPy)

/-- `json.dumps` body of an object with string values (default separators
`", "` and `": "`): members then the closing brace. -/
def membersBodyL : List (String × String) → List Char
  | [] => [Char.ofNat 125]
  | [(k, v)] => '"' :: (k.data ++ '"' :: ':' :: ' ' :: (dumpStrL v ++ [Char.ofNat 125]))
  | (k, v) :: kv2 :: rest =>
    '"' :: (k.data ++ '"' :: ':' :: ' ' :: (dumpStrL v ++ ',' :: ' ' :: membersBodyL (kv2 :: rest)))

/-- `json.dumps` of one Finding. -/
def dumpFindingL (f : Finding) : List Char := Char.ofNat 123 :: membersBodyL (fieldsList f)

/-- `json.dumps` body of a Finding array: elements then the closing bracket. -/
def elemsBodyL : List Finding → List Char
  | [] => [']']
  | [f] => dumpFindingL f ++ [']']
  | f :: rest => dumpFindingL f ++ ',' :: ' ' :: elemsBodyL rest

/-- `json.dumps` of a Finding list. -/
def dumpFindingsL (L : List Finding) : List Char := '[' :: elemsBodyL L

/-- `json.dumps` of a Finding list, as a string. -/
def dumpFindings (L : List Finding) : String := String.mk (dumpFindingsL L)

/-- One search hit as consumed from the DuckDuckGo client (`r['title']`,
`r['body']`). -/
structure SearchHit where
  title : String
  body : String

/-- Outcome of `DDGS().text(query, max_results=...)`: either the result
records or an exception (carrying its `str()`). -/
def SearchOutcome := Except String (List SearchHit)

/-- `search_web_context` (lines 28-38) given the provider outcome for its
query: format the hits, fall back to the zero-results placeholder, and turn
any provider exception into the error placeholder (never raises). -/
def search_web_context (outcome : SearchOutcome) : String :=
  match outcome with
  | .error e => "Search skipped due to error: " ++ e
  | .ok results =>
    let context := String.join (results.map
      (fun r => "- Title: " ++ r.title ++ "\n  Snippet: " ++ r.body ++ "\n"))
    if context = "" then "No relevant search results found." else context

/-- Outcome of `requests.get(url, timeout=5)` as consumed by
`get_cisa_kev_set`: an exception, or a status code together with the outcome
of `resp.json()` (which itself may raise on a malformed body). -/
inductive FetchOutcome where
  | exn (msg : String)
  | resp (status : Nat) (body : Except String PyVal)

/-- Python `str.upper()` (ASCII part; CVE identifiers are ASCII). -/
def pyUpper (s : String) : String := String.mk (s.data.map Char.toUpper)

/-- Dictionary lookup on a parsed JSON object; `json.loads` keeps the last
duplicate key, so the last binding wins. -/
def dictGet (kvs : List (String × PyVal)) (k : String) : Option PyVal :=
  (kvs.reverse.find? (fun kv => kv.1 == k)).map (fun kv => kv.2)

/-- The set-comprehension body of `get_cisa_kev_set`:
`{item['cveID'] for item in data['vulnerabilities']}` before `.upper()`.
Any shape violation (no `vulnerabilities` array, a record without a string
`cveID`) raises in Python and is modelled as `Option.none`. -/
def getCveIDs (doc : PyVal) : Option (List String) :=
  match doc with
  | .dict kvs =>
    match dictGet kvs "vulnerabilities" with
    | some (.list items) =>
      items.mapM (fun it =>
        match it with
        | .dict ikvs =>
          match dictGet ikvs "cveID" with
          | some (.str s) => some s
          | _ => Option.none
        | _ => Option.none)
    | _ => Option.none
  | _ => Option.none

/-- `get_cisa_kev_set` (lines 15-26) given the fetch outcome: on HTTP 200 with
a well-shaped body, the set of uppercased `cveID`s (a set, modelled as a
duplicate-free list); on any exception, non-200 status or malformed body, the
empty set — the `try`/`except` swallows everything. -/
def get_cisa_kev_set (f : FetchOutcome) : List String :=
  match f with
  | .exn _ => []
  | .resp status body =>
    if status = 200 then
      match body with
      | .error _ => []
      | .ok doc =>
        match getCveIDs doc with
        | some ids => (ids.map pyUpper).dedup
        | Option.none => []
    else []

/-- Modelled from the spec: the `st.cache_data(ttl=3600)` memoization wrapper
around `get_cisa_kev_set` is provided by the Streamlit framework, not by code
under `src/`.  Spec §4.2: the fetch result is memoized for a fixed 1-hour
window; within the window repeated calls must not re-fetch; after expiry the
next call re-fetches synchronously.  `now` is the call time in seconds; the
returned flag records whether an underlying fetch was issued. -/
structure KevCacheState where
  value : List String
  fetchedAt : Nat

/-- Modelled from the spec: one call through the TTL cache.  Returns the
value handed to the caller, the new cache state, and whether the underlying
fetch ran. -/
def cached_get_kev (fetch : Nat → FetchOutcome) (now : Nat) (st : Option KevCacheState) :
    List String × Option KevCacheState × Bool :=
  match st with
  | some c =>
    if now < c.fetchedAt + 3600 then (c.value, some c, false)
    else
      let v := get_cisa_kev_set (fetch now)
      (v, some ⟨v, now⟩, true)
  | Option.none =>
    let v := get_cisa_kev_set (fetch now)
    (v, some ⟨v, now⟩, true)

/-- The external collaborators of one `run_analysis` invocation: the KEV
fetch outcome, the search provider, and the chat-completion backend (an
`Except.error` models `client.chat.completions.create` raising; the carried
string is `str(e)`).  The fixed system prompt and model name do not influence
the modelled control flow and are absorbed into `classify`. -/
structure Env where
  kevFetch : FetchOutcome
  search : String → SearchOutcome
  classify : String → Except String String

/-- The search query built at line 130 for an (already uppercased)
identifier. -/
def searchQuery (cve : String) : String :=
  cve ++ " vulnerability exploit poc cvss score github"

/-- The per-identifier search context of lines 127-131: the literal
`"Search Disabled"` placeholder unless search is enabled, otherwise
`search_web_context` on the provider's outcome for the query. -/
def search_context (env : Env) (enableSearch : Bool) (cve : String) : String :=
  if enableSearch then search_web_context (env.search (searchQuery cve)) else "Search Disabled"

/-- The per-identifier block appended to `enriched_info` (lines 118-136). -/
def vulnBlock (env : Env) (enableSearch : Bool) (kev : List String) (cve : String) : String :=
  "--- Vulnerability: " ++ pyUpper cve ++ " ---\n" ++
  "[CISA KEV Database Hit]: " ++
    (if pyUpper cve ∈ kev then "YES (Must be P0, Critical)" else "No") ++ "\n" ++
  "[Internet Search Context]:\n" ++ search_context env enableSearch (pyUpper cve) ++ "\n\n"

/-- The classifier input built by lines 113-138. -/
def enriched_info (env : Env) (enableSearch : Bool) (raw : String) : String :=
  "【用户提供的原始情报】\n" ++ raw ++ "\n\n【系统自动补充的外部情报】\n" ++
    (if (extract_cves raw).isEmpty then "(未检测到 CVE 编号，仅根据文本描述分析)"
     else String.join ((extract_cves raw).map
       (vulnBlock env enableSearch (get_cisa_kev_set env.kevFetch))))

/-- What one `run_analysis` call surfaces: the `st.error` messages shown, the
raw model response exposed in the diagnostic expander (if any), and the
returned value. -/
structure RunResult where
  errors : List String
  rawShown : Option String
  findings : PyVal

/-- `run_analysis` (lines 104-172).  The progress bar is presentation only
and not modelled.  The whole classifier call and extraction sit in a
`try`/`except`, and every helper (`get_cisa_kev_set`, `search_web_context`,
`extract_cves`, `extract_json_from_text`) is itself total, so the model is a
total function: no exception propagates to the caller. -/
def run_analysis (env : Env) (raw_text : String) (enableSearch : Bool) : RunResult :=
  match env.classify (enriched_info env enableSearch raw_text) with
  | .error e => ⟨["API 调用失败: " ++ e], Option.none, .list []⟩
  | .ok content =>
    let data := extract_json_from_text content
    if truthy data then ⟨[], Option.none, data⟩
    else ⟨["AI 返回的数据格式不正确，无法解析为 JSON。请查看下方原始返回内容。"],
          some content, .list []⟩

/-! ### Utility lemmas -/

theorem skipWs_cons_not {c : Char} (cs : List Char) (h : isJWs c = false) :
    skipWs (c :: cs) = c :: cs := by
  simp [skipWs, List.dropWhile_cons, h]

theorem skipWs_space (cs : List Char) : skipWs (' ' :: cs) = skipWs cs := by
  simp only [skipWs]
  rw [List.dropWhile_cons_of_pos (by decide)]

theorem leadsWith_append_self (l t : List Char) : leadsWith l (l ++ t) = true := by
  induction l with
  | nil => rfl
  | cons c l ih => simp [leadsWith, ih]

theorem char_toNat_valid (c : Char) :
    c.toNat < 55296 ∨ (57343 < c.toNat ∧ c.toNat < 1114112) := by
  have h := c.valid
  simp only [UInt32.isValidChar, Nat.isValidChar] at h
  exact h

theorem hexVal_hexDigit : ∀ d : Nat, d < 16 → hexVal (hexDigit d) = some d := by decide

/-! ### String escape round-trip -/

theorem psb_quote (fuel : Nat) (rest : List Char) :
    parseStringBody (fuel + 1) ('"' :: rest) = some ([], rest) := rfl

theorem psb_esc_simple (fuel : Nat) (e ch : Char) (t : List Char)
    (h : (e = '"' ∧ ch = '"') ∨ (e = '\\' ∧ ch = '\\') ∨ (e = '/' ∧ ch = '/') ∨
      (e = 'b' ∧ ch = Char.ofNat 8) ∨ (e = 'f' ∧ ch = Char.ofNat 12) ∨
      (e = 'n' ∧ ch = '\n') ∨ (e = 'r' ∧ ch = '\r') ∨ (e = 't' ∧ ch = '\t')) :
    parseStringBody (fuel + 1) ('\\' :: e :: t) = strCons ch (parseStringBody fuel t) := by
  rcases h with ⟨he, hc⟩ | ⟨he, hc⟩ | ⟨he, hc⟩ | ⟨he, hc⟩ | ⟨he, hc⟩ | ⟨he, hc⟩ | ⟨he, hc⟩ |
    ⟨he, hc⟩ <;> subst he <;> subst hc <;>
    (rw [parseStringBody.eq_def]; cases t <;> simp)

theorem psb_plain (fuel : Nat) (c : Char) (rest : List Char) (h1 : c ≠ '"') (h2 : c ≠ '\\')
    (h3 : 32 ≤ c.toNat) :
    parseStringBody (fuel + 1) (c :: rest) = strCons c (parseStringBody fuel rest) := by
  rw [parseStringBody.eq_def]
  split <;>
    first
    | (rename_i heq; simp at heq; done)
    | (rename_i heq
       injection heq with hc hr
       subst hc
       first
       | exact absurd rfl h1
       | exact absurd rfl h2)
    | (simp_all; done)
    | (simp_all
       all_goals rw [if_neg (by omega)])

theorem psb_u_single (fuel : Nat) (h1 h2 h3 h4 : Char) (t : List Char) (a b c d : Nat)
    (ha : hexVal h1 = some a) (hb : hexVal h2 = some b) (hc : hexVal h3 = some c)
    (hd : hexVal h4 = some d)
    (hcode : ¬(55296 ≤ 4096 * a + 256 * b + 16 * c + d ∧
      4096 * a + 256 * b + 16 * c + d ≤ 56319)) :
    parseStringBody (fuel + 1) ('\\' :: 'u' :: h1 :: h2 :: h3 :: h4 :: t) =
      strCons (Char.ofNat (4096 * a + 256 * b + 16 * c + d)) (parseStringBody fuel t) := by
  rw [parseStringBody.eq_def]
  split
  · rename_i heq; simp at heq
  · rename_i heq; simp at heq
  · rename_i heq; simp at heq
  · rename_i hfe heq
    injection hfe with hf
    subst hf
    simp at heq
    obtain ⟨e1, e2, e3, e4, e5⟩ := heq
    subst e1; subst e2; subst e3; subst e4; subst e5
    simp only [ha, hb, hc, hd]
    all_goals rw [if_neg hcode]
  · rename_i hfe heq
    injection hfe with hf
    subst hf
    simp at heq
    obtain ⟨e1, e2, e3, e4, e5⟩ := heq
    subst e1; subst e2; subst e3; subst e4; subst e5
    simp only [ha, hb, hc, hd]
    all_goals rfl
  · rename_i hneg hfe heq
    injection heq with hx hy
    injection hy with he ht
    exact (hneg h1 h2 h3 h4 t he.symm ht.symm).elim
  · rename_i heq; simp at heq
  · rename_i hn1 hn2 hfe heq
    injection heq with hcx hrx
    exact (hn1 'u' (h1 :: h2 :: h3 :: h4 :: t) hcx.symm hrx.symm).elim

theorem psb_u_pair (fuel : Nat) (p1 p2 p3 p4 q1 q2 q3 q4 : Char) (t : List Char)
    (a b c d a' b' c' d' : Nat)
    (ha : hexVal p1 = some a) (hb : hexVal p2 = some b) (hc : hexVal p3 = some c)
    (hd : hexVal p4 = some d)
    (ha' : hexVal q1 = some a') (hb' : hexVal q2 = some b') (hc' : hexVal q3 = some c')
    (hd' : hexVal q4 = some d')
    (hhi : 55296 ≤ 4096 * a + 256 * b + 16 * c + d ∧ 4096 * a + 256 * b + 16 * c + d ≤ 56319)
    (hlo : 56320 ≤ 4096 * a' + 256 * b' + 16 * c' + d' ∧
      4096 * a' + 256 * b' + 16 * c' + d' ≤ 57343) :
    parseStringBody (fuel + 1)
        ('\\' :: 'u' :: p1 :: p2 :: p3 :: p4 :: '\\' :: 'u' :: q1 :: q2 :: q3 :: q4 :: t) =
      strCons (Char.ofNat (65536 + ((4096 * a + 256 * b + 16 * c + d) - 55296) * 1024 +
        ((4096 * a' + 256 * b' + 16 * c' + d') - 56320))) (parseStringBody fuel t) := by
  rw [parseStringBody.eq_def]
  simp only [ha, hb, hc, hd, ha', hb', hc', hd']
  rw [if_pos hhi, if_pos hlo]

theorem escChar_len (c : Char) : 1 ≤ (escChar c).length := by
  rw [escChar.eq_def]
  split_ifs <;> simp

theorem escBody_len (s : List Char) : s.length ≤ (s.flatMap escChar).length := by
  induction s with
  | nil => simp
  | cons c s ih =>
    have h := escChar_len c
    simp only [List.flatMap_cons, List.length_append, List.length_cons]
    omega

/-- A `json.dumps`-escaped string body followed by the closing quote parses
back to exactly the original characters (given fuel beyond the decoded
length): the core of the extractor round-trip. -/
theorem psb_escBody : ∀ (s : List Char) (fuel : Nat) (rest : List Char), s.length < fuel →
    parseStringBody fuel (s.flatMap escChar ++ '"' :: rest) = some (s, rest) := by
  intro s
  induction s with
  | nil =>
    intro fuel rest hf
    obtain ⟨g, rfl⟩ : ∃ g, fuel = g + 1 := ⟨fuel - 1, by omega⟩
    exact psb_quote g rest
  | cons c s ih =>
    intro fuel rest hf
    obtain ⟨g, rfl⟩ : ∃ g, fuel = g + 1 := ⟨fuel - 1, by omega⟩
    have hg : s.length < g := by simp at hf; omega
    have hstep : (c :: s).flatMap escChar ++ '"' :: rest =
        escChar c ++ (s.flatMap escChar ++ '"' :: rest) := by
      simp
    rw [hstep]
    by_cases h1 : c = '"'
    · subst h1
      rw [show escChar '"' = ['\\', '"'] from rfl]
      rw [List.cons_append, List.cons_append, List.nil_append,
        psb_esc_simple _ _ _ _ (Or.inl ⟨rfl, rfl⟩), ih g rest hg]
      rfl
    by_cases h2 : c = '\\'
    · subst h2
      rw [show escChar '\\' = ['\\', '\\'] from rfl]
      rw [List.cons_append, List.cons_append, List.nil_append,
        psb_esc_simple _ _ _ _ (Or.inr (Or.inl ⟨rfl, rfl⟩)), ih g rest hg]
      rfl
    by_cases h3 : c = '\n'
    · subst h3
      rw [show escChar '\n' = ['\\', 'n'] from rfl]
      rw [List.cons_append, List.cons_append, List.nil_append,
        psb_esc_simple _ _ _ _
          (Or.inr (Or.inr (Or.inr (Or.inr (Or.inr (Or.inl ⟨rfl, rfl⟩)))))), ih g rest hg]
      rfl
    by_cases h4 : c = '\r'
    · subst h4
      rw [show escChar '\r' = ['\\', 'r'] from rfl]
      rw [List.cons_append, List.cons_append, List.nil_append,
        psb_esc_simple _ _ _ _
          (Or.inr (Or.inr (Or.inr (Or.inr (Or.inr (Or.inr (Or.inl ⟨rfl, rfl⟩))))))), ih g rest hg]
      rfl
    by_cases h5 : c = '\t'
    · subst h5
      rw [show escChar '\t' = ['\\', 't'] from rfl]
      rw [List.cons_append, List.cons_append, List.nil_append,
        psb_esc_simple _ _ _ _
          (Or.inr (Or.inr (Or.inr (Or.inr (Or.inr (Or.inr (Or.inr ⟨rfl, rfl⟩))))))), ih g rest hg]
      rfl
    by_cases h6 : c = Char.ofNat 8
    · subst h6
      rw [show escChar (Char.ofNat 8) = ['\\', 'b'] from rfl]
      rw [List.cons_append, List.cons_append, List.nil_append,
        psb_esc_simple _ _ _ _ (Or.inr (Or.inr (Or.inr (Or.inl ⟨rfl, rfl⟩)))), ih g rest hg]
      rfl
    by_cases h7 : c = Char.ofNat 12
    · subst h7
      rw [show escChar (Char.ofNat 12) = ['\\', 'f'] from rfl]
      rw [List.cons_append, List.cons_append, List.nil_append,
        psb_esc_simple _ _ _ _ (Or.inr (Or.inr (Or.inr (Or.inr (Or.inl ⟨rfl, rfl⟩))))),
        ih g rest hg]
      rfl
    by_cases h8 : c.toNat < 32 ∨ 126 < c.toNat
    · -- the `\uXXXX` escapes
      have hval := char_toNat_valid c
      by_cases h9 : c.toNat < 65536
      · -- single escape; the char is a scalar value, hence not a surrogate
        have hesc : escChar c = '\\' :: 'u' :: hex4 c.toNat := by
          rw [escChar.eq_def]
          rw [if_neg h1, if_neg h2, if_neg h3, if_neg h4, if_neg h5, if_neg h6, if_neg h7,
            if_pos h8, if_pos h9]
        rw [hesc]
        simp only [hex4, List.cons_append, List.nil_append]
        rw [psb_u_single _ _ _ _ _ _ _ _ _ _
          (hexVal_hexDigit _ (Nat.mod_lt _ (by omega)))
          (hexVal_hexDigit _ (Nat.mod_lt _ (by omega)))
          (hexVal_hexDigit _ (Nat.mod_lt _ (by omega)))
          (hexVal_hexDigit _ (Nat.mod_lt _ (by omega)))
          (by omega)]
        have hco : 4096 * (c.toNat / 4096 % 16) + 256 * (c.toNat / 256 % 16) +
            16 * (c.toNat / 16 % 16) + c.toNat % 16 = c.toNat := by omega
        rw [hco, Char.ofNat_toNat, ih g rest hg]
        rfl
      · -- astral plane: surrogate pair
        have hesc : escChar c =
            ('\\' :: 'u' :: hex4 (55296 + (c.toNat - 65536) / 1024)) ++
              ('\\' :: 'u' :: hex4 (56320 + (c.toNat - 65536) % 1024)) := by
          rw [escChar.eq_def]
          rw [if_neg h1, if_neg h2, if_neg h3, if_neg h4, if_neg h5, if_neg h6, if_neg h7,
            if_pos h8, if_neg h9]
        rw [hesc]
        have hv : c.toNat - 65536 < 1048576 := by omega
        simp only [hex4, List.cons_append, List.nil_append]
        rw [psb_u_pair _ _ _ _ _ _ _ _ _ _ _ _ _ _ _ _ _ _
          (hexVal_hexDigit _ (Nat.mod_lt _ (by omega)))
          (hexVal_hexDigit _ (Nat.mod_lt _ (by omega)))
          (hexVal_hexDigit _ (Nat.mod_lt _ (by omega)))
          (hexVal_hexDigit _ (Nat.mod_lt _ (by omega)))
          (hexVal_hexDigit _ (Nat.mod_lt _ (by omega)))
          (hexVal_hexDigit _ (Nat.mod_lt _ (by omega)))
          (hexVal_hexDigit _ (Nat.mod_lt _ (by omega)))
          (hexVal_hexDigit _ (Nat.mod_lt _ (by omega)))
          (by constructor <;> omega)
          (by constructor <;> omega)]
        have hco : 65536 +
            ((4096 * ((55296 + (c.toNat - 65536) / 1024) / 4096 % 16) +
              256 * ((55296 + (c.toNat - 65536) / 1024) / 256 % 16) +
              16 * ((55296 + (c.toNat - 65536) / 1024) / 16 % 16) +
              (55296 + (c.toNat - 65536) / 1024) % 16) - 55296) * 1024 +
            ((4096 * ((56320 + (c.toNat - 65536) % 1024) / 4096 % 16) +
              256 * ((56320 + (c.toNat - 65536) % 1024) / 256 % 16) +
              16 * ((56320 + (c.toNat - 65536) % 1024) / 16 % 16) +
              (56320 + (c.toNat - 65536) % 1024) % 16) - 56320) = c.toNat := by omega
        rw [hco, Char.ofNat_toNat, ih g rest hg]
        rfl
    · -- plain printable character
      have hesc : escChar c = [c] := by
        rw [escChar.eq_def]
        rw [if_neg h1, if_neg h2, if_neg h3, if_neg h4, if_neg h5, if_neg h6, if_neg h7,
          if_neg h8]
      rw [hesc, List.cons_append, List.nil_append,
        psb_plain _ c _ h1 h2 (by omega), ih g rest hg]
      rfl

/-! ### Object and array round-trip -/

theorem psb_plainKey : ∀ (k : List Char) (fuel : Nat) (rest : List Char), k.length < fuel →
    (∀ c ∈ k, c ≠ '"' ∧ c ≠ '\\' ∧ 32 ≤ c.toNat) →
    parseStringBody fuel (k ++ '"' :: rest) = some (k, rest) := by
  intro k
  induction k with
  | nil =>
    intro fuel rest hf _
    obtain ⟨g, rfl⟩ : ∃ g, fuel = g + 1 := ⟨fuel - 1, by omega⟩
    simpa using psb_quote g rest
  | cons c k ih =>
    intro fuel rest hf h
    obtain ⟨g, rfl⟩ : ∃ g, fuel = g + 1 := ⟨fuel - 1, by omega⟩
    have hc := h c (List.mem_cons_self c k)
    rw [List.cons_append, psb_plain _ c _ hc.1 hc.2.1 hc.2.2,
      ih g rest (by simp at hf; omega) (fun x hx => h x (List.mem_cons_of_mem c hx))]
    rfl

theorem parseVal_ws (n : Nat) (cs : List Char) : parseVal n (' ' :: cs) = parseVal n cs := by
  cases n with
  | zero => rfl
  | succ m => simp only [parseVal]; rw [skipWs_space]

theorem parseMembers_ws (n : Nat) (cs : List Char) :
    parseMembers n (' ' :: cs) = parseMembers n cs := by
  cases n with
  | zero => rfl
  | succ m => simp only [parseMembers]; rw [skipWs_space]

theorem stringMk_data (s : String) : String.mk s.data = s := rfl

theorem parseVal_str (n : Nat) (s : String) (rest : List Char) :
    parseVal (n + 1) (dumpStrL s ++ rest) = some (.str s, rest) := by
  have hshape : dumpStrL s ++ rest = '"' :: (s.data.flatMap escChar ++ '"' :: rest) := by
    simp [dumpStrL]
  rw [hshape]
  simp only [parseVal]
  rw [skipWs_cons_not _ (by decide)]
  simp +decide
  rw [psb_escBody s.data _ rest
    (by have h := escBody_len s.data
        rw [List.length_flatMap] at h
        omega)]
  simp [stringMk_data]

/-- Well-formedness of the seven fixed JSON keys (no escapes needed). -/
def plainKeys (l : List (String × String)) : Prop :=
  ∀ kv ∈ l, ∀ c ∈ (kv.1 : String).data, c ≠ '"' ∧ c ≠ '\\' ∧ 32 ≤ c.toNat

theorem parseMembers_strs :
    ∀ (l : List (String × String)), l ≠ [] → plainKeys l →
      ∀ (n : Nat), l.length + 1 ≤ n → ∀ (rest : List Char),
      parseMembers n (membersBodyL l ++ rest) =
        some (l.map (fun kv => (kv.1, PyVal.str kv.2)), rest) := by
  intro l
  induction l with
  | nil => intro hne; exact absurd rfl hne
  | cons kv l ih =>
    obtain ⟨k, v⟩ := kv
    intro _ hk n hn rest
    obtain ⟨m, rfl⟩ : ∃ m, n = m + 1 := ⟨n - 1, by omega⟩
    have hkk := hk (k, v) (List.mem_cons_self _ _)
    cases l with
    | nil =>
      have hshape : membersBodyL [(k, v)] ++ rest =
          '"' :: (k.data ++ '"' :: ':' :: ' ' :: (dumpStrL v ++ Char.ofNat 125 :: rest)) := by
        simp [membersBodyL]
      rw [hshape]
      simp only [parseMembers]
      rw [skipWs_cons_not _ (by decide)]
      simp +decide
      rw [psb_plainKey k.data _ _
        (by have hkl : k.length = k.data.length := rfl
            omega) hkk]
      simp +decide
      rw [skipWs_cons_not _ (by decide)]
      simp +decide
      obtain ⟨m', rfl⟩ : ∃ m', m = m' + 1 := ⟨m - 1, by simp at hn; omega⟩
      rw [parseVal_ws, parseVal_str]
      simp +decide
      rw [skipWs_cons_not _ (by decide)]
      simp +decide [stringMk_data]
    | cons kv2 l2 =>
      have hshape : membersBodyL ((k, v) :: kv2 :: l2) ++ rest =
          '"' :: (k.data ++ '"' :: ':' :: ' ' ::
            (dumpStrL v ++ ',' :: ' ' :: (membersBodyL (kv2 :: l2) ++ rest))) := by
        simp [membersBodyL]
      rw [hshape]
      simp only [parseMembers]
      rw [skipWs_cons_not _ (by decide)]
      simp +decide
      rw [psb_plainKey k.data _ _
        (by have hkl : k.length = k.data.length := rfl
            omega) hkk]
      simp +decide
      rw [skipWs_cons_not _ (by decide)]
      simp +decide
      obtain ⟨m', rfl⟩ : ∃ m', m = m' + 1 := ⟨m - 1, by simp at hn; omega⟩
      rw [parseVal_ws, parseVal_str]
      simp +decide
      rw [skipWs_cons_not _ (by decide)]
      simp +decide
      rw [parseMembers_ws,
        ih (by simp) (fun x hx => hk x (List.mem_cons_of_mem _ hx)) (m' + 1)
          (by simp at hn ⊢; omega)]
      simp [stringMk_data]

theorem fieldsKeysOk (f : Finding) : plainKeys (fieldsList f) := by
  intro kv hkv
  simp [fieldsList] at hkv
  rcases hkv with h | h | h | h | h | h | h <;> subst h
  · exact fun c hc =>
      (by decide : ∀ x ∈ ("component" : String).data, x ≠ '"' ∧ x ≠ '\\' ∧ 32 ≤ x.toNat) c hc
  · exact fun c hc =>
      (by decide : ∀ x ∈ ("cve" : String).data, x ≠ '"' ∧ x ≠ '\\' ∧ 32 ≤ x.toNat) c hc
  · exact fun c hc =>
      (by decide : ∀ x ∈ ("level" : String).data, x ≠ '"' ∧ x ≠ '\\' ∧ 32 ≤ x.toNat) c hc
  · exact fun c hc =>
      (by decide : ∀ x ∈ ("tag" : String).data, x ≠ '"' ∧ x ≠ '\\' ∧ 32 ≤ x.toNat) c hc
  · exact fun c hc =>
      (by decide : ∀ x ∈ ("reason" : String).data, x ≠ '"' ∧ x ≠ '\\' ∧ 32 ≤ x.toNat) c hc
  · exact fun c hc =>
      (by decide : ∀ x ∈ ("suggestion" : String).data, x ≠ '"' ∧ x ≠ '\\' ∧ 32 ≤ x.toNat) c hc
  · exact fun c hc =>
      (by decide : ∀ x ∈ ("action_code" : String).data, x ≠ '"' ∧ x ≠ '\\' ∧ 32 ≤ x.toNat) c hc

theorem membersBody_cons_head (k v : String) (l : List (String × String)) :
    ∃ tl, membersBodyL ((k, v) :: l) = '"' :: tl := by
  cases l with
  | nil => exact ⟨k.data ++ '"' :: ':' :: ' ' :: (dumpStrL v ++ [Char.ofNat 125]), rfl⟩
  | cons kv2 l2 =>
    exact ⟨k.data ++ '"' :: ':' :: ' ' :: (dumpStrL v ++ ',' :: ' ' :: membersBodyL (kv2 :: l2)),
      rfl⟩

theorem parseVal_obj (l : List (String × String)) (hne : l ≠ []) (hk : plainKeys l)
    (n : Nat) (hn : l.length + 2 ≤ n) (rest : List Char) :
    parseVal n ((Char.ofNat 123 :: membersBodyL l) ++ rest) =
      some (.dict (l.map (fun kv => (kv.1, PyVal.str kv.2))), rest) := by
  obtain ⟨m, rfl⟩ : ∃ m, n = m + 1 := ⟨n - 1, by omega⟩
  rw [List.cons_append]
  simp only [parseVal]
  rw [skipWs_cons_not _ (by decide)]
  simp +decide
  cases l with
  | nil => exact absurd rfl hne
  | cons kv l' =>
    obtain ⟨k, v⟩ := kv
    obtain ⟨tl, htl⟩ := membersBody_cons_head k v l'
    have htl2 : membersBodyL ((k, v) :: l') ++ rest = '"' :: (tl ++ rest) := by
      rw [htl]; rfl
    rw [htl2, skipWs_cons_not _ (by decide)]
    simp +decide
    rw [← htl2, parseMembers_strs ((k, v) :: l') (by simp) hk m (by simp at hn ⊢; omega)]
    simp

theorem parseVal_dumpFinding (n : Nat) (hn : 9 ≤ n) (f : Finding) (rest : List Char) :
    parseVal n (dumpFindingL f ++ rest) = some (findingToPy f, rest) := by
  rw [show dumpFindingL f = Char.ofNat 123 :: membersBodyL (fieldsList f) from rfl,
    parseVal_obj (fieldsList f) (by simp [fieldsList]) (fieldsKeysOk f) n
      (by simp [fieldsList]; omega)]
  rfl

theorem parseElems_findings :
    ∀ (L : List Finding), L ≠ [] → ∀ (n : Nat), L.length + 9 ≤ n → ∀ (rest : List Char),
      parseElems n (elemsBodyL L ++ rest) = some (L.map findingToPy, rest) := by
  intro L
  induction L with
  | nil => intro hne; exact absurd rfl hne
  | cons f L ih =>
    intro _ n hn rest
    obtain ⟨m, rfl⟩ : ∃ m, n = m + 1 := ⟨n - 1, by omega⟩
    simp only [parseElems]
    cases L with
    | nil =>
      rw [show elemsBodyL [f] ++ rest = dumpFindingL f ++ (']' :: rest) from by
          simp [elemsBodyL],
        parseVal_dumpFinding m (by simp at hn; omega)]
      simp +decide
      rw [skipWs_cons_not _ (by decide)]
      simp +decide
    | cons f2 L2 =>
      rw [show elemsBodyL (f :: f2 :: L2) ++ rest =
            dumpFindingL f ++ (',' :: ' ' :: (elemsBodyL (f2 :: L2) ++ rest)) from by
          simp [elemsBodyL],
        parseVal_dumpFinding m (by simp at hn; omega)]
      simp +decide
      rw [skipWs_cons_not _ (by decide)]
      simp +decide
      have hws : parseElems m (' ' :: (elemsBodyL (f2 :: L2) ++ rest)) =
          parseElems m (elemsBodyL (f2 :: L2) ++ rest) := by
        cases m with
        | zero => rfl
        | succ m' => simp only [parseElems]; rw [parseVal_ws]
      rw [hws, ih (by simp) m (by simp at hn ⊢; omega)]
      rfl

theorem parseVal_dumpFindings (L : List Finding) (n : Nat) (hn : L.length + 10 ≤ n)
    (rest : List Char) :
    parseVal n (dumpFindingsL L ++ rest) = some (findingsToPy L, rest) := by
  obtain ⟨m, rfl⟩ : ∃ m, n = m + 1 := ⟨n - 1, by omega⟩
  rw [show dumpFindingsL L = '[' :: elemsBodyL L from rfl, List.cons_append]
  simp only [parseVal]
  rw [skipWs_cons_not _ (by decide)]
  simp +decide
  cases L with
  | nil =>
    rw [show elemsBodyL ([] : List Finding) ++ rest = ']' :: rest from by simp [elemsBodyL],
      skipWs_cons_not _ (by decide)]
    simp +decide [findingsToPy]
  | cons f L' =>
    obtain ⟨tl, htl⟩ : ∃ tl, elemsBodyL (f :: L') = Char.ofNat 123 :: tl := by
      cases L' with
      | nil =>
        exact ⟨membersBodyL (fieldsList f) ++ [']'], by simp [elemsBodyL, dumpFindingL]⟩
      | cons f2 L2 =>
        exact ⟨membersBodyL (fieldsList f) ++ ',' :: ' ' :: elemsBodyL (f2 :: L2),
          by simp [elemsBodyL, dumpFindingL]⟩
    have htl2 : elemsBodyL (f :: L') ++ rest = Char.ofNat 123 :: (tl ++ rest) := by
      rw [htl]; rfl
    rw [htl2, skipWs_cons_not _ (by decide)]
    simp +decide
    rw [← htl2, parseElems_findings (f :: L') (by simp) m (by simp at hn ⊢; omega)]
    exact ⟨_, rfl, rfl⟩

theorem dumpFindingL_len (f : Finding) : 5 ≤ (dumpFindingL f).length := by
  simp [dumpFindingL, fieldsList, membersBodyL, dumpStrL]
  try omega

theorem elemsBodyL_len :
    ∀ (L : List Finding), L ≠ [] → 5 * L.length + 1 ≤ (elemsBodyL L).length := by
  intro L
  induction L with
  | nil => intro h; exact absurd rfl h
  | cons f L ih =>
    intro _
    cases L with
    | nil =>
      have := dumpFindingL_len f
      simp [elemsBodyL]
      omega
    | cons f2 L2 =>
      have h1 := dumpFindingL_len f
      have h2 := ih (by simp)
      simp [elemsBodyL] at h2 ⊢
      omega

/-- `json.loads` recovers a serialized Finding list exactly. -/
theorem jsonLoadsL_dumpFindings (L : List Finding) :
    jsonLoadsL (dumpFindingsL L) = some (findingsToPy L) := by
  cases L with
  | nil => rfl
  | cons f L' =>
    have happ : dumpFindingsL (f :: L') ++ [] = dumpFindingsL (f :: L') := by simp
    have hlen : (f :: L').length + 10 ≤ 2 * (dumpFindingsL (f :: L')).length + 2 := by
      have h1 := elemsBodyL_len (f :: L') (by simp)
      simp [dumpFindingsL] at h1 ⊢
      omega
    simp only [jsonLoadsL]
    rw [← happ, parseVal_dumpFindings (f :: L') _ (by simpa using hlen)]
    rfl

/-- Strategy 1 always fails on backtick-led text. -/
theorem parseVal_backtick (n : Nat) (rest : List Char) :
    parseVal n (Char.ofNat 96 :: rest) = Option.none := by
  cases n with
  | zero => rfl
  | succ m =>
    simp only [parseVal]
    rw [skipWs_cons_not _ (by decide)]
    simp +decide

theorem jsonLoadsL_backtick (rest : List Char) :
    jsonLoadsL (Char.ofNat 96 :: rest) = Option.none := by
  simp only [jsonLoadsL]
  rw [parseVal_backtick]

/-! ### Fence stripping and bracket span -/

theorem removeOccAux_skip (pat : List Char) (c0 : Char) (pt : List Char)
    (hp : pat = c0 :: pt) :
    ∀ (xs : List Char) (fuel : Nat) (ys : List Char), (∀ c ∈ xs, c ≠ c0) →
      removeOccAux pat (xs.length + fuel) (xs ++ ys) = xs ++ removeOccAux pat fuel ys := by
  intro xs
  induction xs with
  | nil => intro fuel ys _; simp
  | cons c xs ih =>
    intro fuel ys h
    have hlen : (c :: xs).length + fuel = (xs.length + fuel) + 1 := by simp; omega
    rw [hlen, List.cons_append]
    have hlw : leadsWith pat (c :: (xs ++ ys)) = false := by
      have hne : (c0 == c) = false := by
        simp only [beq_eq_false_iff_ne]
        exact fun hq => (h c (List.mem_cons_self _ _)) hq.symm
      rw [hp]
      simp [leadsWith, hne]
    rw [show removeOccAux pat ((xs.length + fuel) + 1) (c :: (xs ++ ys)) =
        c :: removeOccAux pat (xs.length + fuel) (xs ++ ys) from by
      simp only [removeOccAux]
      rw [if_neg (by simp [hlw])]]
    rw [ih fuel ys (fun x hx => h x (List.mem_cons_of_mem _ hx))]
    rfl

theorem removeOccAux_front (pat : List Char) (hne : pat ≠ []) (fuel : Nat) (rest : List Char) :
    removeOccAux pat (fuel + 1) (pat ++ rest) = removeOccAux pat fuel rest := by
  cases pat with
  | nil => exact absurd rfl hne
  | cons p pt =>
    rw [List.cons_append]
    simp only [removeOccAux]
    rw [if_pos ⟨by simp, by rw [← List.cons_append]; exact leadsWith_append_self _ _⟩]
    congr 1
    rw [← List.cons_append]
    exact List.drop_left _ _

theorem dropWhileAll (p : Char → Bool) :
    ∀ (xs ys : List Char), (∀ c ∈ xs, p c = true) →
      List.dropWhile p (xs ++ ys) = List.dropWhile p ys := by
  intro xs
  induction xs with
  | nil => intro ys _; simp
  | cons c xs ih =>
    intro ys h
    rw [List.cons_append, List.dropWhile_cons_of_pos (h c (List.mem_cons_self _ _))]
    exact ih ys (fun x hx => h x (List.mem_cons_of_mem _ hx))

/-- Strategy 2 on the fence-wrapped serialization of a backtick-free payload:
both replacements remove exactly the fences and the strip removes the two
newlines. -/
theorem cleanText_fenced (D : List Char) (hbt : ∀ c ∈ D, c ≠ Char.ofNat 96)
    (t p : List Char) (h1 : D = '[' :: t) (h2 : D = p ++ [']']) :
    cleanTextL (patFenceJson ++ '\n' :: (D ++ '\n' :: patTicks)) = D := by
  have hmem : ∀ c ∈ '\n' :: D, c ≠ Char.ofNat 96 := by
    intro c hc
    rcases List.mem_cons.mp hc with h | h
    · subst h; decide
    · exact hbt c h
  have e1 : removeOcc patFenceJson (patFenceJson ++ '\n' :: (D ++ '\n' :: patTicks)) =
      ('\n' :: D) ++ '\n' :: patTicks := by
    simp only [removeOcc]
    rw [show (patFenceJson ++ '\n' :: (D ++ '\n' :: patTicks)).length =
        ((('\n' :: D).length + 10) + 1) from by simp [patFenceJson, patTicks]; try omega]
    rw [removeOccAux_front patFenceJson (by simp [patFenceJson])]
    rw [show ('\n' :: (D ++ '\n' :: patTicks)) = ('\n' :: D) ++ ('\n' :: patTicks) from by simp]
    rw [removeOccAux_skip patFenceJson (Char.ofNat 96)
      [Char.ofNat 96, Char.ofNat 96, 'j', 's', 'o', 'n'] rfl ('\n' :: D) 10 _ hmem]
    congr 1
  have e2 : removeOcc patTicks (('\n' :: D) ++ '\n' :: patTicks) = ('\n' :: D) ++ ['\n'] := by
    simp only [removeOcc]
    rw [show ((('\n' :: D) ++ '\n' :: patTicks)).length = ('\n' :: D).length + 4 from by
      simp [patTicks]; try omega]
    rw [removeOccAux_skip patTicks (Char.ofNat 96)
      [Char.ofNat 96, Char.ofNat 96] rfl ('\n' :: D) 4 _ hmem]
    congr 1
  have e3 : pyStrip (('\n' :: D) ++ ['\n']) = D := by
    simp only [pyStrip]
    rw [List.cons_append, List.dropWhile_cons_of_pos (by decide)]
    rw [h1, List.cons_append, List.dropWhile_cons_of_neg (by decide), ← List.cons_append, ← h1]
    rw [List.reverse_append, h2, List.reverse_append]
    simp only [List.reverse_cons, List.reverse_nil, List.nil_append, List.cons_append]
    rw [List.dropWhile_cons_of_pos (by decide), List.dropWhile_cons_of_neg (by decide)]
    rw [show (']' :: p.reverse) = (p ++ [']']).reverse from by simp]
    rw [List.reverse_reverse, ← h2]
  simp only [cleanTextL]
  rw [e1, e2, e3]

/-- Strategy 3 on a bracket-free-prose-wrapped payload: the regex span is
exactly the payload. -/
theorem bracketSpan_embedded (p1 p2 D t p : List Char)
    (hp1 : ∀ c ∈ p1, c ≠ '[') (hp2 : ∀ c ∈ p2, c ≠ ']')
    (h1 : D = '[' :: t) (h2 : D = p ++ [']']) :
    bracketSpan (p1 ++ D ++ p2) = some D := by
  simp only [bracketSpan]
  have e1 : List.dropWhile (fun c => !(c == '[')) ((p1 ++ D ++ p2)) = D ++ p2 := by
    rw [List.append_assoc, dropWhileAll _ p1 _
      (by intro c hc; simp [List.mem_cons]; exact fun hq => (hp1 c hc) (by
        cases hq; rfl))]
    rw [h1, List.cons_append, List.dropWhile_cons_of_neg (by decide), ← List.cons_append, ← h1]
  rw [e1]
  have e2 : (D ++ p2).reverse = p2.reverse ++ D.reverse := by simp
  rw [e2]
  have e3 : List.dropWhile (fun c => !(c == ']')) (p2.reverse ++ D.reverse) = D.reverse := by
    rw [dropWhileAll _ p2.reverse _
      (by intro c hc; simp [List.mem_reverse] at hc; simp; exact fun hq => (hp2 c hc) (by
        cases hq; rfl))]
    rw [h2, List.reverse_append]
    simp only [List.reverse_cons, List.reverse_nil, List.nil_append, List.cons_append]
    try rw [List.dropWhile_cons_of_neg (by decide)]
    try rw [show (']' :: p.reverse) = (p ++ [']']).reverse from by simp, ← h2]
  rw [e3, List.reverse_reverse]
  rw [if_neg (by simp [h1])]

/-! ### Extractor strategy lemmas -/

theorem extract_strat1 (text : String) (v : PyVal) (h : jsonLoadsL text.data = some v) :
    extract_json_from_text text = v := by
  simp [extract_json_from_text, h]

theorem extract_strat2 (text : String) (v : PyVal) (h1 : jsonLoadsL text.data = Option.none)
    (h2 : jsonLoadsL (cleanTextL text.data) = some v) :
    extract_json_from_text text = v := by
  simp [extract_json_from_text, h1, h2]

theorem extract_strat3 (text : String) (v : PyVal) (span : List Char)
    (h1 : jsonLoadsL text.data = Option.none)
    (h2 : jsonLoadsL (cleanTextL text.data) = Option.none)
    (h3 : bracketSpan text.data = some span) (h4 : jsonLoadsL span = some v) :
    extract_json_from_text text = v := by
  simp [extract_json_from_text, h1, h2, h3, h4]

theorem extract_fail (text : String)
    (h1 : jsonLoadsL text.data = Option.none)
    (h2 : jsonLoadsL (cleanTextL text.data) = Option.none)
    (h3 : ∀ span, bracketSpan text.data = some span → jsonLoadsL span = Option.none) :
    extract_json_from_text text = PyVal.null := by
  simp only [extract_json_from_text, h1, h2]
  cases hb : bracketSpan text.data with
  | none => rfl
  | some span => simp [h3 span hb]

theorem elemsBody_last : ∀ (L : List Finding), ∃ p, elemsBodyL L = p ++ [']'] := by
  intro L
  induction L with
  | nil => exact ⟨[], rfl⟩
  | cons f L ih =>
    cases L with
    | nil => exact ⟨dumpFindingL f, rfl⟩
    | cons f2 L2 =>
      obtain ⟨p', hp'⟩ := ih
      exact ⟨dumpFindingL f ++ ',' :: ' ' :: p', by
        rw [show elemsBodyL (f :: f2 :: L2) = dumpFindingL f ++ ',' :: ' ' :: elemsBodyL (f2 :: L2)
            from rfl, hp']
        simp⟩

theorem dumpFindingsL_last (L : List Finding) : ∃ p, dumpFindingsL L = p ++ [']'] := by
  obtain ⟨p', hp'⟩ := elemsBody_last L
  exact ⟨'[' :: p', by rw [show dumpFindingsL L = '[' :: elemsBodyL L from rfl, hp']; rfl⟩

/-- The fence-wrapped serialization of a backtick-free Finding list recovers
to exactly that list (strategy 1 fails on the fence, strategy 2 strips it). -/
theorem extract_fenced_roundtrip (L : List Finding)
    (hbt : ∀ c ∈ (dumpFindings L).data, c ≠ Char.ofNat 96) :
    extract_json_from_text ("```json\n" ++ dumpFindings L ++ "\n```") = findingsToPy L := by
  have hdata : ("```json\n" ++ dumpFindings L ++ "\n```").data =
      patFenceJson ++ '\n' :: (dumpFindingsL L ++ '\n' :: patTicks) := by
    have h0 : ("```json\n" ++ dumpFindings L ++ "\n```").data =
        (patFenceJson ++ ['\n']) ++ dumpFindingsL L ++ ('\n' :: patTicks) := rfl
    rw [h0]
    simp
  apply extract_strat2
  · rw [hdata]
    rw [show patFenceJson ++ '\n' :: (dumpFindingsL L ++ '\n' :: patTicks) =
        Char.ofNat 96 :: ([Char.ofNat 96, Char.ofNat 96, 'j', 's', 'o', 'n'] ++
          '\n' :: (dumpFindingsL L ++ '\n' :: patTicks)) from rfl]
    exact jsonLoadsL_backtick _
  · rw [hdata]
    obtain ⟨p, hp⟩ := dumpFindingsL_last L
    rw [cleanText_fenced (dumpFindingsL L) (by simpa using hbt) (elemsBodyL L) p rfl hp]
    exact jsonLoadsL_dumpFindings L

/-- The serialization embedded in bracket-free prose recovers to exactly the
original list whenever strategies 1 and 2 fail on the composite text. -/
theorem extract_prose_roundtrip (L : List Finding) (p1 p2 : String)
    (hp1 : ∀ c ∈ p1.data, c ≠ '[') (hp2 : ∀ c ∈ p2.data, c ≠ ']')
    (h1 : json_loads (p1 ++ dumpFindings L ++ p2) = Option.none)
    (h2 : jsonLoadsL (cleanTextL (p1 ++ dumpFindings L ++ p2).data) = Option.none) :
    extract_json_from_text (p1 ++ dumpFindings L ++ p2) = findingsToPy L := by
  have hdata : (p1 ++ dumpFindings L ++ p2).data =
      p1.data ++ dumpFindingsL L ++ p2.data := rfl
  obtain ⟨p, hp⟩ := dumpFindingsL_last L
  apply extract_strat3 _ _ (dumpFindingsL L) h1 h2
  · rw [hdata]
    exact bracketSpan_embedded p1.data p2.data (dumpFindingsL L) (elemsBodyL L) p
      hp1 hp2 rfl hp
  · exact jsonLoadsL_dumpFindings L

/-! ### String.join helpers -/

theorem join_foldl (l : List String) :
    ∀ a : String, l.foldl (fun x y => x ++ y) a = a ++ String.join l := by
  induction l with
  | nil => intro a; simp [String.join]
  | cons x l ih =>
    intro a
    show l.foldl (fun x y => x ++ y) (a ++ x) = a ++ String.join (x :: l)
    rw [ih (a ++ x),
      show String.join (x :: l) = l.foldl (fun x y => x ++ y) ("" ++ x) from rfl,
      ih ("" ++ x)]
    simp [String.append_assoc]

theorem join_cons (s : String) (l : List String) :
    String.join (s :: l) = s ++ String.join l := by
  show l.foldl (fun x y => x ++ y) ("" ++ s) = s ++ String.join l
  rw [join_foldl]
  simp

theorem join_split (g : String → String) :
    ∀ (l : List String) (x : String), x ∈ l →
      ∃ pre post, String.join (l.map g) = pre ++ (g x ++ post) := by
  intro l
  induction l with
  | nil => intro x hx; exact absurd hx (List.not_mem_nil x)
  | cons a l ih =>
    intro x hx
    rcases List.mem_cons.mp hx with h | h
    · refine ⟨"", String.join (l.map g), ?_⟩
      subst h
      rw [List.map_cons, join_cons]
      simp
    · obtain ⟨pre, post, hp⟩ := ih x h
      refine ⟨g a ++ pre, post, ?_⟩
      rw [List.map_cons, join_cons, hp, String.append_assoc]

/-- The formatted search-context block for a nonempty result list is never
the empty string (its first entry alone contributes the 9-character
`"- Title: "` prefix), so `search_web_context` does not fall back to the
zero-results placeholder. -/
theorem fmt_join_ne_empty (r : SearchHit) (rs : List SearchHit) :
    String.join ((r :: rs).map
      (fun h => "- Title: " ++ h.title ++ "\n  Snippet: " ++ h.body ++ "\n")) ≠ "" := by
  intro h
  rw [List.map_cons, join_cons] at h
  have hlen := congrArg String.length h
  simp only [String.length_append] at hlen
  rw [show ("- Title: " : String).length = 9 from rfl,
    show ("" : String).length = 0 from rfl] at hlen
  omega

theorem string_data_append (a b : String) : (a ++ b).data = a.data ++ b.data := rfl

/-! ### Claim C1 -/

/-- C1 counterexample: `extract_cves` preserves the case of each match
(`re.findall` returns the matched text verbatim) and `set` dedup is
case-sensitive, so `"CVE-2025-1234 and cve-2025-1234"` yields TWO
identifiers, one of them the lower-case `"cve-2025-1234"` — not the single
uppercased identifier the claim states.  The `.upper()` fold happens later,
per item, inside `run_analysis` (line 119), not in `extract_cves`. -/
theorem c1_extract_cves_counterexample :
    extract_cves "CVE-2025-1234 and cve-2025-1234" ≠ ["CVE-2025-1234"] ∧
    "cve-2025-1234" ∈ extract_cves "CVE-2025-1234 and cve-2025-1234" ∧
    (extract_cves "CVE-2025-1234 and cve-2025-1234").length = 2 := by
  refine ⟨by decide, by decide, by decide⟩

/-- C1 (amended): `extract_cves` matches case-insensitively and removes
duplicates (the result is always duplicate-free), but it does NOT fold case:
the example input yields both the upper- and the lower-case variant, and the
uppercasing is applied only later, by `run_analysis`, via `.upper()`
(modelled by `pyUpper`). -/
theorem c1_extract_cves_amended :
    (∀ text : String, (extract_cves text).Nodup) ∧
    (extract_cves "CVE-2025-1234 and cve-2025-1234").length = 2 ∧
    "CVE-2025-1234" ∈ extract_cves "CVE-2025-1234 and cve-2025-1234" ∧
    "cve-2025-1234" ∈ extract_cves "CVE-2025-1234 and cve-2025-1234" ∧
    pyUpper "cve-2025-1234" = "CVE-2025-1234" := by
  refine ⟨fun text => List.nodup_dedup _, by decide, by decide, by decide, by decide⟩

/-! ### Claim C9 -/

/-- C9: the pattern `CVE-\d\x7b4\x7d-\d\x7b4,7\x7d` is unanchored, so an
over-long numeric tail is truncated to its first 7 digits rather than
rejected, and an identifier embedded inside a longer word still matches. -/
theorem c9_cve_regex_truncation :
    extract_cves "CVE-2024-123456789" = ["CVE-2024-1234567"] ∧
    extract_cves "xxCVE-2024-1234yy" = ["CVE-2024-1234"] := by
  exact ⟨by decide, by decide⟩

/-! ### Claim C2 -/

/-- C2: `run_analysis` never propagates an exception.  If the classifier
call raises (`Except.error e`), the run surfaces the operator-facing error
`"API 调用失败: " ++ e` and returns the empty list; if the classifier
returns text from which the extractor recovers no truthy value, the run
surfaces the operator-facing format error together with the raw response
and returns the empty list. -/
theorem c2_run_analysis_error_handling :
    (∀ (env : Env) (raw : String) (enableSearch : Bool) (e : String),
      env.classify (enriched_info env enableSearch raw) = Except.error e →
      run_analysis env raw enableSearch =
        ⟨["API 调用失败: " ++ e], Option.none, PyVal.list []⟩) ∧
    (∀ (env : Env) (raw : String) (enableSearch : Bool) (content : String),
      env.classify (enriched_info env enableSearch raw) = Except.ok content →
      truthy (extract_json_from_text content) = false →
      run_analysis env raw enableSearch =
        ⟨["AI 返回的数据格式不正确，无法解析为 JSON。请查看下方原始返回内容。"],
          some content, PyVal.list []⟩) := by
  constructor
  · intro env raw es e he
    simp [run_analysis, he]
  · intro env raw es content hc ht
    simp [run_analysis, hc, ht]

/-- C2 witness: a classifier that raises a connection error yields exactly
the operator-facing error and an empty Finding list. -/
theorem c2_run_analysis_error_handling_witness :
    run_analysis ⟨FetchOutcome.exn "down", fun _ => Except.ok [],
        fun _ => Except.error "Connection refused"⟩ "CVE-2099-0001" true =
      ⟨["API 调用失败: Connection refused"], Option.none, PyVal.list []⟩ :=
  c2_run_analysis_error_handling.1 _ "CVE-2099-0001" true "Connection refused" rfl

/-! ### Claim C4 -/

/-- C4 counterexample: on the input `"[]"` the extractor returns the parsed
empty list (a falsy value), not Python `None` — the source returns the
result of `json.loads` without a truthiness check; only `run_analysis`
later collapses falsy results.  So the sentence "parsing succeeds but the
parsed result is empty/falsy … the result extractor returns a null result"
is false of `extract_json_from_text` itself. -/
theorem c4_extract_json_falsy_counterexample :
    extract_json_from_text "[]" = PyVal.list [] ∧ PyVal.list [] ≠ PyVal.null := by
  refine ⟨rfl, ?_⟩
  intro h
  exact PyVal.noConfusion h

/-- C4 (amended): if all three strategies fail to parse, the extractor
returns null; a falsy parse (e.g. `"[]"`) is returned as-is by the
extractor, and it is `run_analysis` (`if not data`) that then surfaces the
format error and returns the empty list. -/
theorem c4_extract_json_falsy_amended :
    (∀ text : String,
      jsonLoadsL text.data = Option.none →
      jsonLoadsL (cleanTextL text.data) = Option.none →
      (∀ span, bracketSpan text.data = some span → jsonLoadsL span = Option.none) →
      extract_json_from_text text = PyVal.null) ∧
    extract_json_from_text "[]" = PyVal.list [] ∧
    (∀ (env : Env) (raw : String) (enableSearch : Bool) (content : String),
      env.classify (enriched_info env enableSearch raw) = Except.ok content →
      truthy (extract_json_from_text content) = false →
      run_analysis env raw enableSearch =
        ⟨["AI 返回的数据格式不正确，无法解析为 JSON。请查看下方原始返回内容。"],
          some content, PyVal.list []⟩) := by
  refine ⟨extract_fail, rfl, ?_⟩
  intro env raw es content hc ht
  simp [run_analysis, hc, ht]

/-- C4 witness: prose with no bracketed span extracts to null, and a
classifier answering `"[]"` (parsed, but falsy) makes the run surface the
format error and return the empty list. -/
theorem c4_extract_json_falsy_amended_witness :
    extract_json_from_text "no json here" = PyVal.null ∧
    run_analysis ⟨FetchOutcome.exn "down", fun _ => Except.ok [],
        fun _ => Except.ok "[]"⟩ "raw" false =
      ⟨["AI 返回的数据格式不正确，无法解析为 JSON。请查看下方原始返回内容。"],
        some "[]", PyVal.list []⟩ :=
  ⟨c4_extract_json_falsy_amended.1 "no json here" rfl rfl
    (by
      intro span h
      rw [show bracketSpan ("no json here" : String).data = Option.none from rfl] at h
      exact Option.noConfusion h),
   c4_extract_json_falsy_amended.2.2 _ "raw" false "[]" rfl rfl⟩

/-! ### Claim C5 -/

/-- C5: `get_cisa_kev_set` is total over every fetch outcome: any exception,
any non-200 status, a body whose `.json()` raises, or a well-formed body of
the wrong shape all yield the empty set; on a 200 response with a
well-shaped document it returns exactly the uppercased `cveID`s of the
`vulnerabilities` array (as a set: membership is invariant under the
dedup). -/
theorem c5_get_cisa_kev_set_total :
    (∀ msg, get_cisa_kev_set (FetchOutcome.exn msg) = []) ∧
    (∀ status body, status ≠ 200 → get_cisa_kev_set (FetchOutcome.resp status body) = []) ∧
    (∀ e, get_cisa_kev_set (FetchOutcome.resp 200 (Except.error e)) = []) ∧
    (∀ doc, getCveIDs doc = Option.none →
      get_cisa_kev_set (FetchOutcome.resp 200 (Except.ok doc)) = []) ∧
    (∀ doc ids, getCveIDs doc = some ids →
      ∀ s, s ∈ get_cisa_kev_set (FetchOutcome.resp 200 (Except.ok doc)) ↔
        s ∈ ids.map pyUpper) := by
  refine ⟨fun msg => rfl, ?_, fun e => rfl, ?_, ?_⟩
  · intro status body h
    simp [get_cisa_kev_set, h]
  · intro doc h
    simp [get_cisa_kev_set, h]
  · intro doc ids h s
    simp [get_cisa_kev_set, h, List.mem_dedup]

/-- C5 witness: a 404, a malformed document, and a well-shaped document with
one lower-case `cveID` (which the set uppercases). -/
theorem c5_get_cisa_kev_set_total_witness :
    get_cisa_kev_set (FetchOutcome.resp 404 (Except.ok (PyVal.dict []))) = [] ∧
    get_cisa_kev_set (FetchOutcome.resp 200 (Except.ok (PyVal.str "oops"))) = [] ∧
    ("CVE-2024-0001" ∈ get_cisa_kev_set (FetchOutcome.resp 200 (Except.ok (PyVal.dict
        [("vulnerabilities", PyVal.list [PyVal.dict [("cveID", PyVal.str "cve-2024-0001")]])]))) ↔
      "CVE-2024-0001" ∈ (["cve-2024-0001"].map pyUpper)) :=
  ⟨c5_get_cisa_kev_set_total.2.1 404 (Except.ok (PyVal.dict [])) (by decide),
   c5_get_cisa_kev_set_total.2.2.2.1 (PyVal.str "oops") rfl,
   c5_get_cisa_kev_set_total.2.2.2.2 (PyVal.dict
      [("vulnerabilities", PyVal.list [PyVal.dict [("cveID", PyVal.str "cve-2024-0001")]])])
     ["cve-2024-0001"] rfl "CVE-2024-0001"⟩

/-! ### Claim C6 -/

/-- C6: the TTL cache around the KEV fetch.  A cold call fetches; a call
strictly inside the 1-hour window returns the cached value unchanged with no
underlying fetch; the first call at or past expiry fetches anew. -/
theorem c6_kev_cache_ttl :
    (∀ (fetch : Nat → FetchOutcome) (now : Nat),
      cached_get_kev fetch now Option.none =
        (get_cisa_kev_set (fetch now), some ⟨get_cisa_kev_set (fetch now), now⟩, true)) ∧
    (∀ (fetch : Nat → FetchOutcome) (v : List String) (t0 t1 : Nat), t1 < t0 + 3600 →
      cached_get_kev fetch t1 (some ⟨v, t0⟩) = (v, some ⟨v, t0⟩, false)) ∧
    (∀ (fetch : Nat → FetchOutcome) (v : List String) (t0 t1 : Nat), t0 + 3600 ≤ t1 →
      cached_get_kev fetch t1 (some ⟨v, t0⟩) =
        (get_cisa_kev_set (fetch t1), some ⟨get_cisa_kev_set (fetch t1), t1⟩, true)) := by
  refine ⟨fun fetch now => rfl, ?_, ?_⟩
  · intro fetch v t0 t1 h
    simp [cached_get_kev, h]
  · intro fetch v t0 t1 h
    simp [cached_get_kev, Nat.not_lt.mpr h]

/-- C6 witness: a call half an hour after the fetch returns the cached set
with no new fetch; a call exactly at expiry re-fetches. -/
theorem c6_kev_cache_ttl_witness :
    cached_get_kev (fun _ => FetchOutcome.exn "net down") 1800 (some ⟨["CVE-2024-0001"], 0⟩) =
      (["CVE-2024-0001"], some ⟨["CVE-2024-0001"], 0⟩, false) ∧
    (cached_get_kev (fun _ => FetchOutcome.exn "net down") 3600
      (some ⟨["CVE-2024-0001"], 0⟩)).2.2 = true :=
  ⟨c6_kev_cache_ttl.2.1 _ ["CVE-2024-0001"] 0 1800 (by decide),
   by rw [c6_kev_cache_ttl.2.2 (fun _ => FetchOutcome.exn "net down") ["CVE-2024-0001"] 0 3600
     (by decide)]⟩

/-! ### Claim C10 -/

/-- C10: no shape validation anywhere downstream of extraction — whatever
truthy value the extractor recovers (an object, a list of non-Finding
records, any level string) is returned verbatim by `run_analysis`, with no
error and nothing shown. -/
theorem c10_no_shape_validation :
    ∀ (env : Env) (raw : String) (enableSearch : Bool) (content : String) (v : PyVal),
      env.classify (enriched_info env enableSearch raw) = Except.ok content →
      extract_json_from_text content = v →
      truthy v = true →
      run_analysis env raw enableSearch = ⟨[], Option.none, v⟩ := by
  intro env raw es content v hc hv ht
  simp [run_analysis, hc, hv, ht]

/-- C10 witness: a classifier answering a JSON object (not a list) with a
level outside P0–P3: the run returns that object verbatim. -/
theorem c10_no_shape_validation_witness :
    run_analysis ⟨FetchOutcome.exn "down", fun _ => Except.ok [],
        fun _ => Except.ok "\x7b\"level\": \"P9\"\x7d"⟩ "raw" false =
      ⟨[], Option.none, PyVal.dict [("level", PyVal.str "P9")]⟩ :=
  c10_no_shape_validation _ "raw" false _ (PyVal.dict [("level", PyVal.str "P9")]) rfl rfl rfl

/-! ### Claim C3 -/

set_option maxRecDepth 1000000 in
/-- C3 counterexample: strategy 2 strips EVERY occurrence of the three-
backtick marker, not just the wrapping fence, so a fence-wrapped
serialization whose payload itself contains three consecutive backticks
(here inside the `component` field) is recovered MANGLED: the payload string
loses its backticks, so the recovered list differs from the original. -/
theorem c3_extract_json_counterexample :
    extract_json_from_text
      ("```json\n" ++ dumpFindings [⟨"a```b", "c", "P0", "t", "r", "s", "x"⟩] ++ "\n```") =
      findingsToPy [⟨"ab", "c", "P0", "t", "r", "s", "x"⟩] ∧
    findingsToPy [⟨"ab", "c", "P0", "t", "r", "s", "x"⟩] ≠
      findingsToPy [⟨"a```b", "c", "P0", "t", "r", "s", "x"⟩] := by
  constructor
  · rfl
  · intro h
    simp [findingsToPy, findingToPy, fieldsList] at h

/-- C3 (amended): the three strategies are tried in order with first success
winning, and the round trip holds with a proviso on strategy 2: a
fence-wrapped serialization recovers to an equal list whenever the payload
itself contains no backtick; a serialization embedded in bracket-free
leading/trailing prose (on which strategies 1 and 2 fail) recovers to an
equal list; and text on which all strategies fail (in particular garbage
with no bracketed span) yields null. -/
theorem c3_extract_json_roundtrip_amended :
    (∀ L : List Finding, (∀ c ∈ (dumpFindings L).data, c ≠ Char.ofNat 96) →
      extract_json_from_text ("```json\n" ++ dumpFindings L ++ "\n```") = findingsToPy L) ∧
    (∀ (L : List Finding) (p1 p2 : String),
      (∀ c ∈ p1.data, c ≠ '[') → (∀ c ∈ p2.data, c ≠ ']') →
      json_loads (p1 ++ dumpFindings L ++ p2) = Option.none →
      jsonLoadsL (cleanTextL (p1 ++ dumpFindings L ++ p2).data) = Option.none →
      extract_json_from_text (p1 ++ dumpFindings L ++ p2) = findingsToPy L) ∧
    (∀ text : String,
      jsonLoadsL text.data = Option.none →
      jsonLoadsL (cleanTextL text.data) = Option.none →
      bracketSpan text.data = Option.none →
      extract_json_from_text text = PyVal.null) :=
  ⟨extract_fenced_roundtrip, extract_prose_roundtrip,
   fun text h1 h2 h3 => extract_fail text h1 h2
     (fun _ h => Option.noConfusion (h3.symm.trans h))⟩

set_option maxRecDepth 1000000 in
/-- C3 witness: a backtick-free one-finding list survives the fenced round
trip; the same kind of list embedded in prose survives via strategy 3; and
bracket-free garbage yields null. -/
theorem c3_extract_json_roundtrip_amended_witness :
    extract_json_from_text ("```json\n" ++ dumpFindings
        [⟨"Ray", "CVE-2025-34351", "P0", "KEV", "rce", "patch", "upgrade"⟩] ++ "\n```") =
      findingsToPy [⟨"Ray", "CVE-2025-34351", "P0", "KEV", "rce", "patch", "upgrade"⟩] ∧
    extract_json_from_text ("Here is the analysis.\n" ++ dumpFindings
        [⟨"Chrome", "CVE-2025-13223", "P1", "tc", "v8", "update", "now"⟩] ++ "\nDone.") =
      findingsToPy [⟨"Chrome", "CVE-2025-13223", "P1", "tc", "v8", "update", "now"⟩] ∧
    extract_json_from_text "total garbage with no brackets" = PyVal.null :=
  ⟨c3_extract_json_roundtrip_amended.1
     [⟨"Ray", "CVE-2025-34351", "P0", "KEV", "rce", "patch", "upgrade"⟩] (by decide),
   c3_extract_json_roundtrip_amended.2.1
     [⟨"Chrome", "CVE-2025-13223", "P1", "tc", "v8", "update", "now"⟩]
     "Here is the analysis.\n" "\nDone." (by decide) (by decide) rfl rfl,
   c3_extract_json_roundtrip_amended.2.2 "total garbage with no brackets" rfl rfl rfl⟩

/-! ### Claim C7 -/

/-- C7: for every identifier the extractor finds, the enrichment brief
contains that identifier's section: the uppercased identifier in its header
and the KEV-hit flag rendered exactly as `"YES (Must be P0, Critical)"` when
the uppercased identifier is in the KEV set (whose members are themselves
uppercased, making the check case-insensitive and exact-match) and exactly
`"No"` otherwise. -/
theorem c7_kev_flag_in_brief (env : Env) (enableSearch : Bool) (raw cve : String)
    (h : cve ∈ extract_cves raw) :
    ∃ pre post, enriched_info env enableSearch raw =
      pre ++ ("--- Vulnerability: " ++ pyUpper cve ++ " ---\n" ++
        "[CISA KEV Database Hit]: " ++
        (if pyUpper cve ∈ get_cisa_kev_set env.kevFetch
         then "YES (Must be P0, Critical)" else "No") ++ "\n" ++ post) := by
  have hne : (extract_cves raw).isEmpty = false := by
    cases hcl : extract_cves raw with
    | nil => rw [hcl] at h; exact absurd h (List.not_mem_nil _)
    | cons a l => rfl
  obtain ⟨pre, post, hp⟩ := join_split
    (vulnBlock env enableSearch (get_cisa_kev_set env.kevFetch)) (extract_cves raw) cve h
  refine ⟨"【用户提供的原始情报】\n" ++ raw ++ "\n\n【系统自动补充的外部情报】\n" ++ pre,
    "[Internet Search Context]:\n" ++ search_context env enableSearch (pyUpper cve) ++ "\n\n"
      ++ post, ?_⟩
  simp only [enriched_info, hne, Bool.false_eq_true, if_false]
  rw [hp]
  apply String.ext
  simp only [vulnBlock, string_data_append, List.append_assoc]

/-- C7 witness: one lower-case identifier in the raw text, a KEV document
listing it (also lower-case): the brief contains the section with the YES
flag for the uppercased identifier. -/
theorem c7_kev_flag_in_brief_witness :
    "cve-2025-34351" ∈ extract_cves "Ray RCE: cve-2025-34351" ∧
    (∃ pre post,
      enriched_info
        ⟨FetchOutcome.resp 200 (Except.ok (PyVal.dict [("vulnerabilities",
            PyVal.list [PyVal.dict [("cveID", PyVal.str "cve-2025-34351")]])])),
          fun _ => Except.ok [], fun _ => Except.ok ""⟩
        false "Ray RCE: cve-2025-34351" =
      pre ++ ("--- Vulnerability: " ++ pyUpper "cve-2025-34351" ++ " ---\n" ++
        "[CISA KEV Database Hit]: " ++
        (if pyUpper "cve-2025-34351" ∈ get_cisa_kev_set
            (FetchOutcome.resp 200 (Except.ok (PyVal.dict [("vulnerabilities",
              PyVal.list [PyVal.dict [("cveID", PyVal.str "cve-2025-34351")]])])))
         then "YES (Must be P0, Critical)" else "No") ++ "\n" ++ post)) :=
  ⟨by decide,
   c7_kev_flag_in_brief
     ⟨FetchOutcome.resp 200 (Except.ok (PyVal.dict [("vulnerabilities",
         PyVal.list [PyVal.dict [("cveID", PyVal.str "cve-2025-34351")]])])),
       fun _ => Except.ok [], fun _ => Except.ok ""⟩
     false "Ray RCE: cve-2025-34351" "cve-2025-34351" (by decide)⟩

/-! ### Claim C8 -/

/-- C8 counterexample: the three placeholders are not the lower-case
literals the claim quotes: the code produces `"Search Disabled"`,
`"Search skipped due to error: <cause>"` and
`"No relevant search results found."` — e.g. `"Search Disabled"` is not the
claimed `"search disabled"`. -/
theorem c8_search_context_counterexample :
    search_context ⟨FetchOutcome.exn "down", fun _ => Except.ok [],
      fun _ => Except.ok ""⟩ false "CVE-2025-1234" = "Search Disabled" ∧
    ("Search Disabled" : String) ≠ "search disabled" ∧
    search_web_context (Except.ok []) = "No relevant search results found." ∧
    ("No relevant search results found." : String) ≠ "no results" := by
  exact ⟨rfl, by decide, rfl, by decide⟩

/-- C8 (amended): the per-identifier search context is total (never an
exception) and exactly one of the four cases, with the literals the code
actually uses: `"Search Disabled"` when search is off;
`"Search skipped due to error: " ++ cause` when the provider raises;
`"No relevant search results found."` on zero results; otherwise the
formatted title-and-snippet block. -/
theorem c8_search_context_amended :
    (∀ (env : Env) (cve : String), search_context env false cve = "Search Disabled") ∧
    (∀ (env : Env) (cve e : String), env.search (searchQuery cve) = Except.error e →
      search_context env true cve = "Search skipped due to error: " ++ e) ∧
    (∀ (env : Env) (cve : String), env.search (searchQuery cve) = Except.ok [] →
      search_context env true cve = "No relevant search results found.") ∧
    (∀ (env : Env) (cve : String) (r : SearchHit) (rs : List SearchHit),
      env.search (searchQuery cve) = Except.ok (r :: rs) →
      search_context env true cve = String.join ((r :: rs).map
        (fun h => "- Title: " ++ h.title ++ "\n  Snippet: " ++ h.body ++ "\n"))) := by
  refine ⟨fun env cve => rfl, ?_, ?_, ?_⟩
  · intro env cve e hs
    simp [search_context, search_web_context, hs]
  · intro env cve hs
    simp [search_context, search_web_context, hs, String.join]
  · intro env cve r rs hs
    simp only [search_context, if_true, search_web_context, hs]
    rw [if_neg (fmt_join_ne_empty r rs)]

/-- C8 witness: the four cases at concrete providers. -/
theorem c8_search_context_amended_witness :
    search_context ⟨FetchOutcome.exn "x", fun _ => Except.ok [], fun _ => Except.ok ""⟩ false
      "CVE-2025-0001" = "Search Disabled" ∧
    search_context ⟨FetchOutcome.exn "x", fun _ => Except.error "Ratelimit",
      fun _ => Except.ok ""⟩ true "CVE-2025-0001" =
      "Search skipped due to error: Ratelimit" ∧
    search_context ⟨FetchOutcome.exn "x", fun _ => Except.ok [], fun _ => Except.ok ""⟩ true
      "CVE-2025-0001" = "No relevant search results found." ∧
    search_context ⟨FetchOutcome.exn "x", fun _ => Except.ok [⟨"T", "B"⟩],
      fun _ => Except.ok ""⟩ true "CVE-2025-0001" =
      String.join ([(⟨"T", "B"⟩ : SearchHit)].map
        (fun h => "- Title: " ++ h.title ++ "\n  Snippet: " ++ h.body ++ "\n")) :=
  ⟨c8_search_context_amended.1 _ "CVE-2025-0001",
   c8_search_context_amended.2.1 _ "CVE-2025-0001" "Ratelimit" rfl,
   c8_search_context_amended.2.2.1 _ "CVE-2025-0001" rfl,
   c8_search_context_amended.2.2.2 _ "CVE-2025-0001" ⟨"T", "B"⟩ [] rfl⟩

end VulnApp
